import Mathlib

/-
  Verification of the admin layer of `src/src/admin/index.js` (kafkajs admin
  client).  The definitions below are a shallow embedding of that file:
  pure validation logic is translated directly, stateful network interaction
  becomes explicit state passing over small environment records, and the
  collaborators that live outside `src/` (the retry executor `createRetry`,
  the polling helper `waitFor`, the error classes and the protocol
  enumeration tables) are modelled from the specification, as marked in the
  corresponding doc comments.
-/

namespace KafkaAdmin

/-- A JavaScript runtime value, as far as the admin validators inspect one:
the validators only ask `typeof x === 'string'`, test truthiness, or
interpolate the value into an error message, so strings, numbers, booleans,
`null` and `undefined` suffice. -/
inductive JsVal where
  | str (s : String)
  | num (n : Int)
  | boolV (b : Bool)
  | nullV
  | undef
deriving DecidableEq

/-- The JS test `typeof v === 'string'`. -/
def JsVal.isString : JsVal → Bool
  | .str _ => true
  | _ => false

def JsVal.asString : JsVal → Option String
  | .str s => some s
  | _ => none

/-- JS template-literal / `JSON.stringify` rendering of the small value
universe, used to model interpolated error messages. -/
def JsVal.display : JsVal → String
  | .str s => s
  | .num n => toString n
  | .boolV b => if b then "true" else "false"
  | .nullV => "null"
  | .undef => "undefined"

deriving instance DecidableEq for Except

/-- Protocol error discriminators (the `type` tag on protocol errors) that
the admin layer's catch blocks inspect. -/
inductive ErrType where
  | NOT_CONTROLLER
  | COORDINATOR_NOT_AVAILABLE
  | TOPIC_ALREADY_EXISTS
  | LEADER_NOT_AVAILABLE
  | UNKNOWN_TOPIC_OR_PARTITION
  | REQUEST_TIMED_OUT
  | other (code : Nat)
deriving DecidableEq

/-- One per-group row of a broker `deleteGroups` response
(`{ groupId, errorCode, error }`). -/
structure DGResult where
  groupId : String
  errorCode : Int
  error : String
deriving DecidableEq

/-- Errors surfaced by the admin operations.  `nonRetriable` is
`KafkaJSNonRetriableError` with its message, `protocolE` a protocol error
carrying a `type` tag, `aggregate` is `KafkaJSDeleteGroupsError` with its
per-group failure list, and `waitTimeout` the timeout error produced by the
`waitFor` poll with its `timeoutMessage`. -/
inductive AdminErr where
  | nonRetriable (msg : String)
  | protocolE (t : ErrType)
  | aggregate (msg : String) (failures : List DGResult)
  | waitTimeout (msg : String)
deriving DecidableEq

/-- Network-visible operations on the Cluster / Broker collaborators,
recorded as a trace so that "no network call occurs" is expressible. -/
inductive NetOp where
  | refreshMetadata
  | findControllerBroker
  | findGroupCoordinator (groupId : String)
  | brokerDeleteGroups (nodeId : Nat) (groupIds : List String)
  | brokerCreateAcls
  | brokerCreateTopics
  | brokerMetadata (topics : List String)
deriving DecidableEq

/-- Outcome of one attempt of a retried operation body: a value, an error
rethrown for the retry executor (retriable), or an error passed to `bail`
(fatal). -/
inductive ROutcome (ε α : Type) where
  | ok (a : α)
  | retriable (e : ε)
  | bail (e : ε)
deriving DecidableEq

/-- Modelled from the spec: the RetryOrchestrator (`createRetry`, outside
`src/`).  `body` receives the attempt index and the current state and yields
a new state and an outcome.  A retriable error is retried while attempts
remain (`fuel` is the number of retries left) and the last error is
propagated unchanged on exhaustion; a bailed error aborts immediately. -/
def retrier {σ ε α : Type} (body : Nat → σ → σ × ROutcome ε α) :
    Nat → Nat → σ → σ × Except ε α
  | 0, k, s =>
    match body k s with
    | (s', .ok a) => (s', .ok a)
    | (s', .retriable e) => (s', .error e)
    | (s', .bail e) => (s', .error e)
  | fuel + 1, k, s =>
    match body k s with
    | (s', .ok a) => (s', .ok a)
    | (s', .retriable _) => retrier body fuel (k + 1) s'
    | (s', .bail e) => (s', .error e)

/-- Modelled from the spec: the fixed protocol enumeration table
`protocol/operationsTypes` (outside `src/`); only membership matters to the
validators. -/
def OPERATION_TYPES : List Int := [0, 1, 2, 3, 4, 5, 6, 7, 8, 9, 10, 11, 12]

/-- Modelled from the spec: `protocol/resourcePatternTypes` (outside
`src/`). -/
def RESOURCE_PATTERN_TYPES : List Int := [0, 1, 2, 3, 4]

/-- Modelled from the spec: `protocol/permissionTypes` (outside `src/`). -/
def PERMISSION_TYPES : List Int := [0, 1, 2, 3]

/-- Modelled from the spec: `protocol/resourceTypes` (outside `src/`). -/
def RESOURCE_TYPES : List Int := [0, 1, 2, 3, 4, 5, 6]

/-- One entry of the `acl` array passed to `createAcls`.  The three
identity fields are arbitrary JS values (the validator checks they are
strings); the four enumeration fields are numbers checked for membership in
the fixed enum tables. -/
structure AclEntry where
  principal : JsVal
  host : JsVal
  resourceName : JsVal
  operation : Int
  resourcePatternType : Int
  permissionType : Int
  resourceType : Int
deriving DecidableEq

/-- The `acl` argument of `createAcls`: either not an array at all (any
non-array JS value) or an array of entries. -/
inductive AclArg where
  | notArray (v : JsVal)
  | arr (acl : List AclEntry)
deriving DecidableEq

/-- The single validation error raised by `createAcls`, one constructor per
`throw` site, carrying the data the thrown message interpolates. -/
inductive AclError where
  | invalidArray (v : JsVal)
  | emptyArray
  | invalidPrincipal
  | invalidHost
  | invalidResourceName
  | invalidOperation (entry : AclEntry)
  | invalidResourcePatternType (entry : AclEntry)
  | invalidPermissionType (entry : AclEntry)
  | invalidResourceType (entry : AclEntry)
deriving DecidableEq

/-- Position of the validation rule that raised a given error in the fixed
precedence order: array-shape (0), principal (1), host (2),
resourceName (3), operation (4), resourcePatternType (5),
permissionType (6), resourceType (7). -/
def AclError.ruleIndex : AclError → Nat
  | .invalidArray _ => 0
  | .emptyArray => 0
  | .invalidPrincipal => 1
  | .invalidHost => 2
  | .invalidResourceName => 3
  | .invalidOperation _ => 4
  | .invalidResourcePatternType _ => 5
  | .invalidPermissionType _ => 6
  | .invalidResourceType _ => 7

/-- The validation chain of `createAcls`, one branch per `throw` site, in
source order. -/
def createAclsValidate : AclArg → Option AclError
  | .notArray v => some (.invalidArray v)
  | .arr acl =>
    if acl.isEmpty then some .emptyArray
    else if acl.any (fun e => !e.principal.isString) then some .invalidPrincipal
    else if acl.any (fun e => !e.host.isString) then some .invalidHost
    else if acl.any (fun e => !e.resourceName.isString) then some .invalidResourceName
    else
      match acl.find? (fun i => !(OPERATION_TYPES.contains i.operation)) with
      | some i => some (.invalidOperation i)
      | none =>
        match acl.find? (fun i => !(RESOURCE_PATTERN_TYPES.contains i.resourcePatternType)) with
        | some i => some (.invalidResourcePatternType i)
        | none =>
          match acl.find? (fun i => !(PERMISSION_TYPES.contains i.permissionType)) with
          | some i => some (.invalidPermissionType i)
          | none =>
            match acl.find? (fun i => !(RESOURCE_TYPES.contains i.resourceType)) with
            | some i => some (.invalidResourceType i)
            | none => none

/-- Semantic statement of the individual validation rules of `createAcls`,
indexed by their position in the precedence order, stated independently of
the validation chain (rules ≥ 8 never hold). -/
def aclRuleViolated (i : Nat) (a : AclArg) : Bool :=
  if i = 0 then
    match a with
    | .notArray _ => true
    | .arr l => l.isEmpty
  else
    match a with
    | .notArray _ => false
    | .arr l =>
      if i = 1 then l.any (fun e => !e.principal.isString)
      else if i = 2 then l.any (fun e => !e.host.isString)
      else if i = 3 then l.any (fun e => !e.resourceName.isString)
      else if i = 4 then l.any (fun e => !(OPERATION_TYPES.contains e.operation))
      else if i = 5 then l.any (fun e => !(RESOURCE_PATTERN_TYPES.contains e.resourcePatternType))
      else if i = 6 then l.any (fun e => !(PERMISSION_TYPES.contains e.permissionType))
      else if i = 7 then l.any (fun e => !(RESOURCE_TYPES.contains e.resourceType))
      else false

/-- An ACL batch is malformed when at least one of the eight validation
rules is violated. -/
def aclIsMalformed (a : AclArg) : Bool :=
  (List.range 8).any (fun i => aclRuleViolated i a)

/-- Environment for the network phase of `createAcls`: outcome of the
broker `createAcls` call per attempt (`none` = success). -/
structure AclEnv where
  callErr : Nat → Option ErrType

/-- Error type of `createAcls`: a validation error thrown before the
retrier starts, or a runtime error from the network phase. -/
inductive CreateAclsErr where
  | validation (e : AclError)
  | runtime (e : AdminErr)
deriving DecidableEq

/-- Retried body of `createAcls`: refresh metadata, resolve the controller,
issue the broker call; `NOT_CONTROLLER` is rethrown (retriable), everything
else is bailed. -/
def createAclsBody (env : AclEnv) (k : Nat) (tr : List NetOp) :
    List NetOp × ROutcome AdminErr Bool :=
  let tr' := tr ++ [NetOp.refreshMetadata, NetOp.findControllerBroker, NetOp.brokerCreateAcls]
  match env.callErr k with
  | none => (tr', .ok true)
  | some t =>
    if t = ErrType.NOT_CONTROLLER then (tr', .retriable (.protocolE t))
    else (tr', .bail (.protocolE t))

/-- Function `createAcls` of `src/src/admin/index.js`: the full validation chain
before any network interaction, then the retried controller call.  Returns
the result together with the trace of network operations performed. -/
def createAcls (arg : AclArg) (env : AclEnv) (fuel : Nat) :
    Except CreateAclsErr Bool × List NetOp :=
  match createAclsValidate arg with
  | some e => (.error (.validation e), [])
  | none =>
    let (tr, r) := retrier (createAclsBody env) fuel 0 []
    (r.mapError .runtime, tr)

/-- Environment of `deleteGroups`: the group-coordinator assignment and the
per-group broker response at each attempt, plus an optional call-level
protocol error thrown by the fan-out broker calls of an attempt.  The
Cluster collaborator answers `findGroupCoordinator` with the coordinator's
node id, and a broker answers `deleteGroups` with one
`{groupId, errorCode, error}` row per requested group id. -/
structure DGEnv where
  coordOf : Nat → String → Nat
  ec : Nat → String → Int
  em : Nat → String → String
  callErr : Nat → Option ErrType

/-- The `groupIds` argument of `deleteGroups`: not an array, or an array of
JS values (the validator checks each is a string). -/
inductive GroupsArg where
  | notArray (v : JsVal)
  | arr (groupIds : List JsVal)
deriving DecidableEq

/-- Mutable state captured by the `deleteGroups` closure across retry
attempts: the shrinking target set `clonedGroupIds`, plus the trace of
network operations performed so far. -/
structure DGState where
  cloned : List String
  trace : List NetOp
deriving DecidableEq

/-- The row a broker response contributes for group `g` at attempt `k`. -/
def mkRow (env : DGEnv) (k : Nat) (g : String) : DGResult :=
  ⟨g, env.ec k g, env.em k g⟩

/-- The distinct coordinator node ids for the groups of one attempt, in
ascending order (JS iterates integer-like object keys in ascending numeric
order). -/
def dgNodes (env : DGEnv) (k : Nat) (ids : List String) : List Nat :=
  List.insertionSort (· ≤ ·) ((ids.map (env.coordOf k)).dedup)

/-- The per-coordinator fan-out of one `deleteGroups` attempt, flattened in
coordinator-iteration order: one broker call per distinct coordinator,
each returning one row per group id routed to it. -/
def dgFanOut (env : DGEnv) (k : Nat) (ids : List String) : List DGResult :=
  (dgNodes env k ids).flatMap
    (fun n => (ids.filter (fun g => env.coordOf k g = n)).map (mkRow env k))

/-- The updated `clonedGroupIds` after the flattened results of attempt `k`
are filtered for failures (`errorCode !== 0`). -/
def dgNext (env : DGEnv) (k : Nat) (cur : List String) : List String :=
  ((dgFanOut env k cur).filter (fun r => !(r.errorCode = 0))).map (·.groupId)

/-- One retried attempt of `deleteGroups`.  Modelled from the spec where the
error classes live outside `src/`: per §4.6 the loop repeats with the
shrunken target set, so the aggregate `KafkaJSDeleteGroupsError` is
retriable, while call-level protocol errors other than `NOT_CONTROLLER` and
`COORDINATOR_NOT_AVAILABLE` are fatal (bailed).  A call-level error occurs
at the broker calls, after the coordinator lookups, so `clonedGroupIds` is
left unchanged by it. -/
def dgAttempt (env : DGEnv) (k : Nat) (s : DGState) :
    DGState × ROutcome AdminErr (List DGResult) :=
  if s.cloned.isEmpty then (s, .ok [])
  else
    let nodes := dgNodes env k s.cloned
    let ops := NetOp.refreshMetadata ::
      (s.cloned.map NetOp.findGroupCoordinator ++
        nodes.map (fun n => NetOp.brokerDeleteGroups n
          (s.cloned.filter (fun g => env.coordOf k g = n))))
    let s₁ : DGState := ⟨s.cloned, s.trace ++ ops⟩
    match env.callErr k with
    | some t =>
      if t = ErrType.NOT_CONTROLLER ∨ t = ErrType.COORDINATOR_NOT_AVAILABLE then
        (s₁, .retriable (.protocolE t))
      else (s₁, .bail (.protocolE t))
    | none =>
      let res := dgFanOut env k s.cloned
      let errors := res.filter (fun r => !(r.errorCode = 0))
      let s₂ : DGState := ⟨errors.map (·.groupId), s₁.trace⟩
      if errors.isEmpty then (s₂, .ok res)
      else (s₂, .retriable (.aggregate "Error in DeleteGroups" errors))

/-- The `clonedGroupIds` update performed by one attempt, as a function of
the ids alone (an attempt with an empty target set or a call-level error
leaves the set unchanged; otherwise it shrinks to the failed ids). -/
def dgStep (env : DGEnv) (k : Nat) (cur : List String) : List String :=
  if cur.isEmpty then cur
  else
    match env.callErr k with
    | some _ => cur
    | none => dgNext env k cur

/-- The outcome of one attempt, as a function of the ids alone. -/
def dgOutcome (env : DGEnv) (k : Nat) (cur : List String) :
    ROutcome AdminErr (List DGResult) :=
  if cur.isEmpty then .ok []
  else
    match env.callErr k with
    | some t =>
      if t = ErrType.NOT_CONTROLLER ∨ t = ErrType.COORDINATOR_NOT_AVAILABLE then
        .retriable (.protocolE t)
      else .bail (.protocolE t)
    | none =>
      let errors := (dgFanOut env k cur).filter (fun r => !(r.errorCode = 0))
      if errors.isEmpty then .ok (dgFanOut env k cur)
      else .retriable (.aggregate "Error in DeleteGroups" errors)

/-- The trajectory of `clonedGroupIds`: the retry target set at the start
of each attempt, starting from the validated input ids. -/
def dgTargets (env : DGEnv) (ids : List String) : Nat → List String
  | 0 => ids
  | k + 1 => dgStep env k (dgTargets env ids k)

/-- Function `deleteGroups` of `src/src/admin/index.js`: validation (note that the
empty array passes both checks), then the retried shrink-and-retry loop.
Returns the result together with the network trace. -/
def deleteGroups (arg : GroupsArg) (env : DGEnv) (fuel : Nat) :
    Except AdminErr (List DGResult) × List NetOp :=
  match arg with
  | .notArray v =>
    (.error (.nonRetriable ("Invalid groupIds array " ++ v.display)), [])
  | .arr l =>
    let invalidGroupId := l.any (fun g => !g.isString)
    if invalidGroupId then
      (.error (.nonRetriable ("Invalid groupId name: " ++
        (JsVal.boolV invalidGroupId).display)), [])
    else
      let ids := l.filterMap JsVal.asString
      let (s, r) := retrier (dgAttempt env) fuel 0 ⟨ids, []⟩
      (r, s.trace)

/-- One entry of the `topics` argument of `createTopics`; only the `topic`
name field is inspected by the validators, the remaining per-topic
configuration is irrelevant to the embedded behaviour. -/
structure TopicCfg where
  topic : JsVal
deriving DecidableEq

/-- The `topics` argument of `createTopics`: not an array, or an array of
topic configurations. -/
inductive CTArg where
  | notArray (v : JsVal)
  | arr (topics : List TopicCfg)
deriving DecidableEq

/-- The validation chain of `createTopics`, one branch per `throw` site in
source order: array shape, string-typed names, name uniqueness (the `Set`
of names must not be smaller than the array). -/
def createTopicsValidate : CTArg → Option AdminErr
  | .notArray v => some (.nonRetriable ("Invalid topics array " ++ v.display))
  | .arr topics =>
    if !((topics.filter (fun t => !t.topic.isString)).length = 0) then
      some (.nonRetriable "Invalid topics array, the topic names have to be a valid string")
    else if (topics.map (fun t => t.topic)).dedup.length < topics.length then
      some (.nonRetriable "Invalid topics array, it cannot have multiple entries for the same topic")
    else none

/-- Modelled from the spec: `waitFor` (outside `src/`) repeatedly invokes
the callback with a fixed delay until it returns a truthy value (`some`),
propagating callback errors unchanged, and fails with a timeout error
carrying its `timeoutMessage` when its own bounded time budget (`fuel`
remaining polls) expires. -/
def waitForPoll {α : Type} (callback : Nat → Except AdminErr (Option α))
    (timeoutMessage : String) : Nat → Nat → Except AdminErr α
  | 0, i =>
    match callback i with
    | .error e => .error e
    | .ok (some a) => .ok a
    | .ok none => .error (.waitTimeout timeoutMessage)
  | fuel + 1, i =>
    match callback i with
    | .error e => .error e
    | .ok (some a) => .ok a
    | .ok none => waitForPoll callback timeoutMessage fuel (i + 1)

/-- Function `retryOnLeaderNotAvailable` of `src/src/admin/index.js`: wraps `fn` in
a callback that converts a `LEADER_NOT_AVAILABLE` error into the sentinel
falsy value (`none`, so the poll continues) and rethrows every other error,
then polls it with `waitFor`. -/
def retryOnLeaderNotAvailable (fn : Nat → Except AdminErr Unit)
    (timeoutMessage : String) (fuel : Nat) : Except AdminErr Unit :=
  waitForPoll
    (fun i =>
      match fn i with
      | .ok v => .ok (some v)
      | .error e =>
        if e = .protocolE ErrType.LEADER_NOT_AVAILABLE then .ok none
        else .error e)
    timeoutMessage fuel 0

/-- Environment of `createTopics`: an optional error for the metadata
refresh / controller resolution / transport of each outer attempt, and the
outcome of the leader-readiness metadata query per outer attempt and inner
poll iteration (`none` = metadata returned, leaders present). -/
structure CTEnv where
  ctrlErr : Nat → Option ErrType
  metaOut : Nat → Nat → Option ErrType

/-- The catch block of `createTopics`: `NOT_CONTROLLER` is rethrown
(retriable), `TOPIC_ALREADY_EXISTS` returns `false` from the body, every
other error is bailed. -/
def ctCatch (e : AdminErr) : ROutcome AdminErr Bool :=
  if e = .protocolE ErrType.NOT_CONTROLLER then .retriable e
  else if e = .protocolE ErrType.TOPIC_ALREADY_EXISTS then .ok false
  else .bail e

/-- Retried body of `createTopics` over the broker-side set of existing
topic names.  Modelled from the spec for the broker collaborator: the
broker `createTopics` call fails with `TOPIC_ALREADY_EXISTS` when one of
the requested names already exists, and otherwise registers the new
topics. -/
def ctBody (env : CTEnv) (names : List String) (waitForLeaders : Bool)
    (innerFuel : Nat) (k : Nat) (existing : List String) :
    List String × ROutcome AdminErr Bool :=
  match env.ctrlErr k with
  | some t => (existing, ctCatch (.protocolE t))
  | none =>
    if names.any (fun t => existing.contains t) then
      (existing, ctCatch (.protocolE ErrType.TOPIC_ALREADY_EXISTS))
    else
      let existing' := existing ++ names
      if waitForLeaders then
        match retryOnLeaderNotAvailable
            (fun i =>
              match env.metaOut k i with
              | none => .ok ()
              | some t => .error (.protocolE t))
            "Timed out while waiting for topic leaders" innerFuel with
        | .ok _ => (existing', .ok true)
        | .error e => (existing', ctCatch e)
      else (existing', .ok true)

/-- Function `createTopics` of `src/src/admin/index.js`: validation, then the
retried create against the controller with the optional inner
leader-readiness poll.  Returns the result and the broker-side topic set
after the call. -/
def createTopics (arg : CTArg) (waitForLeaders : Bool) (env : CTEnv)
    (fuel innerFuel : Nat) (existing : List String) :
    Except AdminErr Bool × List String :=
  match createTopicsValidate arg with
  | some e => (.error e, existing)
  | none =>
    let names :=
      match arg with
      | .notArray _ => []
      | .arr topics => topics.filterMap (fun t => t.topic.asString)
    let (s, r) := retrier (ctBody env names waitForLeaders innerFuel) fuel 0 existing
    (r, s)

/-- One element of the `partitions` argument of `setOffsets`
(a `SeekEntry`). -/
structure SeekEntry where
  partition : Nat
  offset : Int
deriving DecidableEq

/-- Operations issued against the ephemeral consumer (and observable
side effects) by `setOffsets`, recorded as a trace. -/
inductive ConsumerOp where
  | subscribe (topic : String)
  | describeGroup
  | runStart
  | pause (topic : String)
  | seek (topic : String) (part : Nat) (off : Int)
  | stop
deriving DecidableEq

/-- Function `isConsumerGroupRunning` of `src/src/admin/index.js`:
`['Empty', 'Dead'].includes(description.state)`. -/
def isConsumerGroupRunning (state : String) : Bool :=
  ["Empty", "Dead"].contains state

/-- Function `setOffsets` of `src/src/admin/index.js` as a trace-producing function
of the group description state the ephemeral consumer reports: validation,
subscribe, describeGroup, the terminal-state gate, and then the
run / pause / seek sequence resolved by the first fetch event (after which
the consumer is stopped). -/
def setOffsets (groupId topic : String) (partitions : List SeekEntry)
    (state : String) : Except AdminErr Unit × List ConsumerOp :=
  if groupId = "" then
    (.error (.nonRetriable ("Invalid groupId " ++ groupId)), [])
  else if topic = "" then
    (.error (.nonRetriable ("Invalid topic " ++ topic)), [])
  else if partitions.isEmpty then
    (.error (.nonRetriable "Invalid partitions"), [])
  else
    let ops₀ := [ConsumerOp.subscribe topic, ConsumerOp.describeGroup]
    if !isConsumerGroupRunning state then
      (.error (.nonRetriable
        ("The consumer group must have no running instances, current state: " ++ state)),
       ops₀)
    else
      (.ok (),
       ops₀ ++ [ConsumerOp.runStart, ConsumerOp.pause topic] ++
         partitions.map (fun p => ConsumerOp.seek topic p.partition p.offset) ++
         [ConsumerOp.stop])

/-- JS `Array.prototype.sort()` with no comparator on numbers: sorts by the
string representations. -/
def jsDefaultSort (l : List Nat) : List Nat :=
  List.insertionSort (fun a b => toString a ≤ toString b) l

/-- Environment of `resetOffsets`: the partition metadata of a topic and
the `defaultOffset` sentinel of the Cluster collaborator. -/
structure ROEnv where
  partitionIdsOf : String → List Nat
  defaultOffset : Bool → Int

/-- Function `findTopicPartitions` of `src/src/admin/index.js`: the partition ids of
the topic's metadata, sorted with the default JS sort. -/
def findTopicPartitions (env : ROEnv) (topic : String) : List Nat :=
  jsDefaultSort (env.partitionIdsOf topic)

/-- Function `resetOffsets` of `src/src/admin/index.js`: validation, then seek every
partition of the topic to the earliest/latest sentinel via `setOffsets`. -/
def resetOffsets (env : ROEnv) (groupId topic : String) (earliest : Bool)
    (state : String) : Except AdminErr Unit × List ConsumerOp :=
  if groupId = "" then
    (.error (.nonRetriable ("Invalid groupId " ++ groupId)), [])
  else if topic = "" then
    (.error (.nonRetriable ("Invalid topic " ++ topic)), [])
  else
    let partitionsToSeek := (findTopicPartitions env topic).map
      (fun partition => SeekEntry.mk partition (env.defaultOffset earliest))
    setOffsets groupId topic partitionsToSeek state

/-- One `{partition, offset}` row of a `fetchTopicsOffset` response. -/
structure PartOffset where
  partition : Nat
  offset : Int
deriving DecidableEq

/-- One entry of the `fetchTopicOffsets` result:
`{partition, offset, high, low}`. -/
structure TopicOffsetEntry where
  partition : Nat
  offset : Int
  high : Int
  low : Int
deriving DecidableEq

/-- Environment of `fetchTopicOffsets`: the topic's partition metadata, the
from-end (`high`) and from-beginning (`low`) offsets the cluster reports
per partition — the Cluster collaborator answers an offsets query with one
row per requested partition — and an optional per-attempt error. -/
structure FTOEnv where
  partitionIds : List Nat
  highOf : Nat → Int
  lowOf : Nat → Int
  fetchErr : Nat → Option ErrType

/-- The successful body of `fetchTopicOffsets`: query the from-end and
from-beginning offsets for the metadata partitions and pair them by
partition id with `find` over the from-beginning rows (the `getD 0` default
is unreachable: both responses list exactly the metadata partitions). -/
def ftoEntries (env : FTOEnv) : List TopicOffsetEntry :=
  let metadata := env.partitionIds
  let highPartitions := metadata.map (fun p => PartOffset.mk p (env.highOf p))
  let lowPartitions := metadata.map (fun p => PartOffset.mk p (env.lowOf p))
  highPartitions.map (fun hp =>
    { partition := hp.partition
      offset := hp.offset
      high := hp.offset
      low := (((lowPartitions.find? (fun lp => lp.partition = hp.partition)).map
        PartOffset.offset).getD 0) })

/-- Retried body of `fetchTopicOffsets`: `UNKNOWN_TOPIC_OR_PARTITION` is
rethrown after a metadata refresh (retriable), every other error is
bailed. -/
def ftoBody (env : FTOEnv) (k : Nat) (u : Unit) :
    Unit × ROutcome AdminErr (List TopicOffsetEntry) :=
  (u,
    match env.fetchErr k with
    | some t =>
      if t = ErrType.UNKNOWN_TOPIC_OR_PARTITION then .retriable (.protocolE t)
      else .bail (.protocolE t)
    | none => .ok (ftoEntries env))

/-- Function `fetchTopicOffsets` of `src/src/admin/index.js`. -/
def fetchTopicOffsets (topic : String) (env : FTOEnv) (fuel : Nat) :
    Except AdminErr (List TopicOffsetEntry) :=
  if topic = "" then .error (.nonRetriable ("Invalid topic " ++ topic))
  else (retrier (ftoBody env) fuel 0 ()).2

/-- Function `NO_CONTROLLER_ID` of `src/src/admin/index.js`. -/
def NO_CONTROLLER_ID : Int := -1

/-- One broker row of the cluster metadata; `rack` stands for the
additional metadata fields that `describeCluster` must drop. -/
structure MetadataBroker where
  nodeId : Int
  host : String
  port : Nat
  rack : Option String
deriving DecidableEq

/-- One broker row of the `describeCluster` result: exactly the fields
`nodeId`, `host` and `port`. -/
structure BrokerInfo where
  nodeId : Int
  host : String
  port : Nat
deriving DecidableEq

/-- The cluster metadata consumed by `describeCluster`; `controllerId` is
`none` for JS `null`/`undefined` (the code tests `controllerId == null`,
which matches both). -/
structure ClusterMeta where
  brokers : List MetadataBroker
  clusterId : String
  controllerId : Option Int
deriving DecidableEq

/-- The `describeCluster` result. -/
structure ClusterInfo where
  brokers : List BrokerInfo
  controller : Option Int
  clusterId : String
deriving DecidableEq

/-- Function `describeCluster` of `src/src/admin/index.js`. -/
def describeCluster (m : ClusterMeta) : ClusterInfo :=
  { brokers := m.brokers.map (fun b => { nodeId := b.nodeId, host := b.host, port := b.port })
    controller :=
      match m.controllerId with
      | none => none
      | some c => if c = NO_CONTROLLER_ID then none else some c
    clusterId := m.clusterId }

/-- A deleteGroups environment where every delete succeeds immediately. -/
def dgEnvTrivial : DGEnv :=
  { coordOf := fun _ _ => 0
    ec := fun _ _ => 0
    em := fun _ _ => ""
    callErr := fun _ => none }

/-- A deleteGroups environment where `g2` fails on the first attempt and
every delete succeeds from the second attempt on. -/
def dgEnvSplit : DGEnv :=
  { coordOf := fun _ _ => 0
    ec := fun k g => if k = 0 ∧ g = "g2" then 1 else 0
    em := fun _ _ => ""
    callErr := fun _ => none }

/-- A createAcls environment whose broker call always succeeds. -/
def aclEnvOk : AclEnv := { callErr := fun _ => none }

/-- A well-formed ACL entry (all strings, all enum members). -/
def aclEntryOk : AclEntry :=
  { principal := .str "User:foo"
    host := .str "*"
    resourceName := .str "topic-a"
    operation := 2
    resourcePatternType := 3
    permissionType := 3
    resourceType := 2 }

/-- An ACL entry with a non-string host and an out-of-range operation:
the host rule precedes the operation rule. -/
def aclEntryBadHost : AclEntry :=
  { aclEntryOk with host := .num 123, operation := 99 }

/-- A createTopics environment with no controller errors and immediately
available leaders. -/
def ctEnvOk : CTEnv := { ctrlErr := fun _ => none, metaOut := fun _ _ => none }

/-- A createTopics environment whose leader-readiness metadata query fails
with `LEADER_NOT_AVAILABLE` on every poll. -/
def ctEnvLeaderless : CTEnv :=
  { ctrlErr := fun _ => none
    metaOut := fun _ _ => some ErrType.LEADER_NOT_AVAILABLE }

/-- A fetchTopicOffsets environment with two partitions, high watermark 10
and low watermark 2 everywhere, and no errors. -/
def ftoEnvW : FTOEnv :=
  { partitionIds := [0, 1]
    highOf := fun _ => 10
    lowOf := fun _ => 2
    fetchErr := fun _ => none }

/-- A concrete resetOffsets environment: every topic has partitions
[0, 1], with the usual earliest/latest sentinels. -/
def roEnvW : ROEnv :=
  { partitionIdsOf := fun _ => [0, 1]
    defaultOffset := fun b => if b then -2 else -1 }

/-- A concrete cluster metadata value for the describeCluster witness. -/
def clusterMetaW : ClusterMeta :=
  { brokers := [⟨0, "a", 9092, some "r1"⟩, ⟨1, "b", 9093, none⟩]
    clusterId := "cid"
    controllerId := some 1 }

/-! ## Helper lemmas -/

theorem any_eq_false_of_find?_eq_none {α : Type} {p : α → Bool} {l : List α}
    (h : l.find? p = none) : l.any p = false := by
  rw [List.any_eq_false]
  intro x hx
  exact List.find?_eq_none.mp h x hx

theorem any_eq_true_of_find?_eq_some {α : Type} {p : α → Bool} {l : List α} {i : α}
    (h : l.find? p = some i) : l.any p = true :=
  List.any_eq_true.mpr ⟨i, List.mem_of_find?_eq_some h, List.find?_some h⟩

/-- Relation between the validation chain of `createAcls` and the
individually stated rules: a raised error's rule is violated and no
earlier rule is, and passing validation means no rule is violated. -/
theorem createAclsValidate_spec (arg : AclArg) :
    (∀ e, createAclsValidate arg = some e →
      aclRuleViolated e.ruleIndex arg = true ∧
        ∀ j, j < e.ruleIndex → aclRuleViolated j arg = false) ∧
    (createAclsValidate arg = none → ∀ i, aclRuleViolated i arg = false) := by
  cases arg with
  | notArray v =>
    constructor
    · intro e he
      simp only [createAclsValidate, Option.some.injEq] at he
      subst he
      exact ⟨rfl, fun j hj => absurd hj (Nat.not_lt_zero j)⟩
    · intro h
      simp [createAclsValidate] at h
  | arr l =>
    cases h0 : l.isEmpty with
    | true =>
      have heq : createAclsValidate (.arr l) = some .emptyArray := by
        simp only [createAclsValidate, h0, if_true, Bool.false_eq_true, if_true, if_false]
      constructor
      · intro e he
        rw [heq] at he
        injection he with he
        subst he
        exact ⟨by simp [AclError.ruleIndex, aclRuleViolated, h0],
          fun j hj => absurd hj (Nat.not_lt_zero j)⟩
      · intro h
        rw [heq] at h
        exact absurd h (by simp)
    | false =>
      cases h1 : l.any (fun e => !e.principal.isString) with
      | true =>
        have heq : createAclsValidate (.arr l) = some .invalidPrincipal := by
          simp only [createAclsValidate, h0, h1, Bool.false_eq_true, if_true, if_false]
        constructor
        · intro e he
          rw [heq] at he
          injection he with he
          subst he
          refine ⟨by simp [AclError.ruleIndex, aclRuleViolated, h1], ?_⟩
          intro j hj; simp only [AclError.ruleIndex] at hj
          interval_cases j
          simp [aclRuleViolated, h0]
        · intro h
          rw [heq] at h
          exact absurd h (by simp)
      | false =>
        cases h2 : l.any (fun e => !e.host.isString) with
        | true =>
          have heq : createAclsValidate (.arr l) = some .invalidHost := by
            simp only [createAclsValidate, h0, h1, h2, Bool.false_eq_true, if_true, if_false]
          constructor
          · intro e he
            rw [heq] at he
            injection he with he
            subst he
            refine ⟨by simp [AclError.ruleIndex, aclRuleViolated, h2], ?_⟩
            intro j hj; simp only [AclError.ruleIndex] at hj
            interval_cases j <;> simp [aclRuleViolated, h0, h1]
          · intro h
            rw [heq] at h
            exact absurd h (by simp)
        | false =>
          cases h3 : l.any (fun e => !e.resourceName.isString) with
          | true =>
            have heq : createAclsValidate (.arr l) = some .invalidResourceName := by
              simp only [createAclsValidate, h0, h1, h2, h3, Bool.false_eq_true, if_true, if_false]
            constructor
            · intro e he
              rw [heq] at he
              injection he with he
              subst he
              refine ⟨by simp [AclError.ruleIndex, aclRuleViolated, h3], ?_⟩
              intro j hj; simp only [AclError.ruleIndex] at hj
              interval_cases j <;> simp [aclRuleViolated, h0, h1, h2]
            · intro h
              rw [heq] at h
              exact absurd h (by simp)
          | false =>
            cases h4 : l.find? (fun i => !(OPERATION_TYPES.contains i.operation)) with
            | some i =>
              have heq : createAclsValidate (.arr l) = some (.invalidOperation i) := by
                simp only [createAclsValidate, h0, h1, h2, h3, h4, Bool.false_eq_true, if_true, if_false]
              constructor
              · intro e he
                rw [heq] at he
                injection he with he
                subst he
                refine ⟨?_, ?_⟩
                · simp [AclError.ruleIndex, aclRuleViolated]
                  exact ⟨i, List.mem_of_find?_eq_some h4, by simpa using List.find?_some h4⟩
                · intro j hj; simp only [AclError.ruleIndex] at hj
                  interval_cases j <;> simp [aclRuleViolated, h0, h1, h2, h3]
              · intro h
                rw [heq] at h
                exact absurd h (by simp)
            | none =>
              have h4m : ∀ x ∈ l, x.operation ∈ OPERATION_TYPES := fun x hx => by
                simpa using List.find?_eq_none.mp h4 x hx
              cases h5 : l.find?
                  (fun i => !(RESOURCE_PATTERN_TYPES.contains i.resourcePatternType)) with
              | some i =>
                have heq : createAclsValidate (.arr l) = some (.invalidResourcePatternType i) := by
                  simp only [createAclsValidate, h0, h1, h2, h3, h4, h5, Bool.false_eq_true, if_true, if_false]
                constructor
                · intro e he
                  rw [heq] at he
                  injection he with he
                  subst he
                  refine ⟨?_, ?_⟩
                  · simp [AclError.ruleIndex, aclRuleViolated]
                    exact ⟨i, List.mem_of_find?_eq_some h5, by simpa using List.find?_some h5⟩
                  · intro j hj; simp only [AclError.ruleIndex] at hj
                    interval_cases j <;> (simp [aclRuleViolated, h0, h1, h2, h3]; try exact h4m)
                · intro h
                  rw [heq] at h
                  exact absurd h (by simp)
              | none =>
                have h5m : ∀ x ∈ l, x.resourcePatternType ∈ RESOURCE_PATTERN_TYPES := fun x hx => by
                  simpa using List.find?_eq_none.mp h5 x hx
                cases h6 : l.find? (fun i => !(PERMISSION_TYPES.contains i.permissionType)) with
                | some i =>
                  have heq : createAclsValidate (.arr l) = some (.invalidPermissionType i) := by
                    simp only [createAclsValidate, h0, h1, h2, h3, h4, h5, h6, Bool.false_eq_true, if_true, if_false]
                  constructor
                  · intro e he
                    rw [heq] at he
                    injection he with he
                    subst he
                    refine ⟨?_, ?_⟩
                    · simp [AclError.ruleIndex, aclRuleViolated]
                      exact ⟨i, List.mem_of_find?_eq_some h6, by simpa using List.find?_some h6⟩
                    · intro j hj; simp only [AclError.ruleIndex] at hj
                      interval_cases j <;> (simp [aclRuleViolated, h0, h1, h2, h3]; (try exact h4m); (try exact h5m))
                  · intro h
                    rw [heq] at h
                    exact absurd h (by simp)
                | none =>
                  have h6m : ∀ x ∈ l, x.permissionType ∈ PERMISSION_TYPES := fun x hx => by
                    simpa using List.find?_eq_none.mp h6 x hx
                  cases h7 : l.find? (fun i => !(RESOURCE_TYPES.contains i.resourceType)) with
                  | some i =>
                    have heq : createAclsValidate (.arr l) = some (.invalidResourceType i) := by
                      simp only [createAclsValidate, h0, h1, h2, h3, h4, h5, h6, h7, Bool.false_eq_true, if_true, if_false]
                    constructor
                    · intro e he
                      rw [heq] at he
                      injection he with he
                      subst he
                      refine ⟨?_, ?_⟩
                      · simp [AclError.ruleIndex, aclRuleViolated]
                        exact ⟨i, List.mem_of_find?_eq_some h7, by simpa using List.find?_some h7⟩
                      · intro j hj; simp only [AclError.ruleIndex] at hj
                        interval_cases j <;> (simp [aclRuleViolated, h0, h1, h2, h3]; (try exact h4m); (try exact h5m); (try exact h6m))
                    · intro h
                      rw [heq] at h
                      exact absurd h (by simp)
                  | none =>
                    have h7m : ∀ x ∈ l, x.resourceType ∈ RESOURCE_TYPES := fun x hx => by
                      simpa using List.find?_eq_none.mp h7 x hx
                    have heq : createAclsValidate (.arr l) = none := by
                      simp only [createAclsValidate, h0, h1, h2, h3, h4, h5, h6, h7, Bool.false_eq_true, if_true, if_false]
                    constructor
                    · intro e he
                      rw [heq] at he
                      exact absurd he (by simp)
                    · intro _ i
                      by_cases hi : i < 8
                      · interval_cases i <;> (simp [aclRuleViolated, h0, h1, h2, h3]; (try exact h4m); (try exact h5m); (try exact h6m); (try exact h7m))
                      · have hi0 : ¬ i = 0 := by omega
                        have hi1 : ¬ i = 1 := by omega
                        have hi2 : ¬ i = 2 := by omega
                        have hi3 : ¬ i = 3 := by omega
                        have hi4 : ¬ i = 4 := by omega
                        have hi5 : ¬ i = 5 := by omega
                        have hi6 : ¬ i = 6 := by omega
                        have hi7 : ¬ i = 7 := by omega
                        simp [aclRuleViolated, hi0, hi1, hi2, hi3, hi4, hi5, hi6, hi7]

/-! ## C1 -/

/-- C1: for every malformed ACL batch passed to `createAcls` (not an array,
empty array, a non-string principal/host/resourceName, or an
operation/resourcePatternType/permissionType/resourceType outside its fixed
enum set), `createAcls` raises exactly one validation error, determined by
the first violated rule in the precedence order array-shape, principal,
host, resourceName, operation, resourcePatternType, permissionType,
resourceType, and performs no network call. -/
theorem createAcls_first_violated_rule (arg : AclArg) (env : AclEnv) (fuel : Nat)
    (h : aclIsMalformed arg = true) :
    ∃ e, (createAcls arg env fuel).1 = .error (.validation e) ∧
      (createAcls arg env fuel).2 = [] ∧
      aclRuleViolated e.ruleIndex arg = true ∧
      ∀ j, j < e.ruleIndex → aclRuleViolated j arg = false := by
  rcases hv : createAclsValidate arg with _ | e
  · exfalso
    have hall := (createAclsValidate_spec arg).2 hv
    have hex : ∃ i ∈ List.range 8, aclRuleViolated i arg = true := by
      simpa [aclIsMalformed] using h
    rcases hex with ⟨i, _, hi⟩
    rw [hall i] at hi
    cases hi
  · have hspec := (createAclsValidate_spec arg).1 e hv
    exact ⟨e, by simp [createAcls, hv], by simp [createAcls, hv], hspec.1, hspec.2⟩

/-- C1 witness: a concrete batch whose entry has a non-string host and an
out-of-range operation; the host rule (index 2) fires first. -/
theorem createAcls_first_violated_rule_witness :
    aclIsMalformed (.arr [aclEntryBadHost]) = true ∧
    (∃ e, (createAcls (.arr [aclEntryBadHost]) aclEnvOk 3).1 = .error (.validation e) ∧
      (createAcls (.arr [aclEntryBadHost]) aclEnvOk 3).2 = [] ∧
      aclRuleViolated e.ruleIndex (.arr [aclEntryBadHost]) = true ∧
      ∀ j, j < e.ruleIndex → aclRuleViolated j (.arr [aclEntryBadHost]) = false) :=
  ⟨by decide, createAcls_first_violated_rule (.arr [aclEntryBadHost]) aclEnvOk 3 (by decide)⟩

/-! ## C10 -/

/-- C10: `describeCluster` returns controller = null exactly when the
metadata's controllerId is null/undefined or the sentinel -1, and returns
the controllerId otherwise; the broker list carries, for each metadata
broker, exactly the fields nodeId, host and port. -/
theorem describeCluster_spec (m : ClusterMeta) :
    ((describeCluster m).controller = none ↔
      m.controllerId = none ∨ m.controllerId = some NO_CONTROLLER_ID) ∧
    (∀ c, m.controllerId = some c → c ≠ NO_CONTROLLER_ID →
      (describeCluster m).controller = some c) ∧
    (describeCluster m).brokers =
      m.brokers.map (fun b => { nodeId := b.nodeId, host := b.host, port := b.port }) ∧
    (describeCluster m).clusterId = m.clusterId := by
  refine ⟨?_, ?_, rfl, rfl⟩
  · cases hc : m.controllerId with
    | none => simp [describeCluster, hc]
    | some c =>
      by_cases h : c = NO_CONTROLLER_ID
      · simp [describeCluster, hc, h]
      · simp [describeCluster, hc, h]
  · intro c hc hne
    simp [describeCluster, hc, hne]

/-- C10 witness: the description of a concrete two-broker metadata value
with controllerId 1. -/
theorem describeCluster_spec_witness :
    ((describeCluster clusterMetaW).controller = none ↔
      clusterMetaW.controllerId = none ∨ clusterMetaW.controllerId = some NO_CONTROLLER_ID) ∧
    (∀ c, clusterMetaW.controllerId = some c → c ≠ NO_CONTROLLER_ID →
      (describeCluster clusterMetaW).controller = some c) ∧
    (describeCluster clusterMetaW).brokers =
      clusterMetaW.brokers.map (fun b => { nodeId := b.nodeId, host := b.host, port := b.port }) ∧
    (describeCluster clusterMetaW).clusterId = clusterMetaW.clusterId :=
  describeCluster_spec clusterMetaW

/-! ## C4 -/

/-- C4: when the group description reports a state other than Empty/Dead,
`setOffsets` raises a fatal non-retriable error and neither the run loop
nor any pause or seek is issued (the consumer trace stops at subscribe and
describeGroup); when the state is Empty or Dead it resolves and seeks every
listed partition to its requested offset — and hence `resetOffsets`, which
delegates to `setOffsets`, behaves the same on the partitions it computes
for the topic. -/
theorem setOffsets_requires_terminal_group (groupId topic : String)
    (partitions : List SeekEntry) (state : String) (earliest : Bool) (env : ROEnv)
    (hg : groupId ≠ "") (ht : topic ≠ "") (hp : partitions ≠ [])
    (henv : env.partitionIdsOf topic ≠ []) :
    (state ≠ "Empty" → state ≠ "Dead" →
      (setOffsets groupId topic partitions state).1 =
        .error (.nonRetriable
          ("The consumer group must have no running instances, current state: " ++ state)) ∧
      (setOffsets groupId topic partitions state).2 =
        [ConsumerOp.subscribe topic, ConsumerOp.describeGroup]) ∧
    ((state = "Empty" ∨ state = "Dead") →
      (setOffsets groupId topic partitions state).1 = .ok () ∧
      ∀ p ∈ partitions, ConsumerOp.seek topic p.partition p.offset ∈
        (setOffsets groupId topic partitions state).2) ∧
    (state ≠ "Empty" → state ≠ "Dead" →
      (resetOffsets env groupId topic earliest state).2 =
        [ConsumerOp.subscribe topic, ConsumerOp.describeGroup]) ∧
    ((state = "Empty" ∨ state = "Dead") →
      ∀ q ∈ findTopicPartitions env topic,
        ConsumerOp.seek topic q (env.defaultOffset earliest) ∈
          (resetOffsets env groupId topic earliest state).2) := by
  have hseek : ∀ parts : List SeekEntry, parts ≠ [] →
      (state = "Empty" ∨ state = "Dead") →
      (setOffsets groupId topic parts state).1 = .ok () ∧
      ∀ p ∈ parts, ConsumerOp.seek topic p.partition p.offset ∈
        (setOffsets groupId topic parts state).2 := by
    intro parts hne hst
    have hrun : isConsumerGroupRunning state = true := by
      rcases hst with h | h <;> simp [isConsumerGroupRunning, h]
    constructor
    · simp [setOffsets, hg, ht, hne, hrun]
    · intro p hpmem
      simp only [setOffsets, if_neg hg, if_neg ht, hrun, Bool.not_true,
        List.isEmpty_eq_false.mpr hne, Bool.false_eq_true, if_false]
      simp [List.mem_append, List.mem_map]
      exact ⟨p, hpmem, rfl, rfl⟩
  have hrefuse : ∀ parts : List SeekEntry, parts ≠ [] →
      state ≠ "Empty" → state ≠ "Dead" →
      (setOffsets groupId topic parts state).1 =
        .error (.nonRetriable
          ("The consumer group must have no running instances, current state: " ++ state)) ∧
      (setOffsets groupId topic parts state).2 =
        [ConsumerOp.subscribe topic, ConsumerOp.describeGroup] := by
    intro parts hne h1 h2
    have hrun : isConsumerGroupRunning state = false := by
      simp [isConsumerGroupRunning, h1, h2]
    constructor <;> simp [setOffsets, hg, ht, hne, hrun]
  have hsorted : findTopicPartitions env topic ≠ [] := by
    intro hc
    apply henv
    have hperm := List.perm_insertionSort (fun a b => toString a ≤ toString b)
      (env.partitionIdsOf topic)
    rw [findTopicPartitions, jsDefaultSort] at hc
    rw [hc] at hperm
    exact hperm.symm.eq_nil
  have hparts : (findTopicPartitions env topic).map
      (fun partition => SeekEntry.mk partition (env.defaultOffset earliest)) ≠ [] := by
    simpa using hsorted
  refine ⟨fun h1 h2 => hrefuse partitions hp h1 h2,
    fun hst => hseek partitions hp hst, ?_, ?_⟩
  · intro h1 h2
    have := (hrefuse _ hparts h1 h2).2
    simpa [resetOffsets, hg, ht] using this
  · intro hst q hq
    have := (hseek _ hparts hst).2 ⟨q, env.defaultOffset earliest⟩
      (List.mem_map.mpr ⟨q, hq, rfl⟩)
    simpa [resetOffsets, hg, ht] using this

/-- C4 witness: a concrete live-state and terminal-state instantiation. -/
theorem setOffsets_requires_terminal_group_witness :
    ("g" ≠ "" ∧ "t" ≠ "" ∧ [SeekEntry.mk 0 5] ≠ [] ∧ roEnvW.partitionIdsOf "t" ≠ []) ∧
    (("Stable" ≠ "Empty" → "Stable" ≠ "Dead" →
      (setOffsets "g" "t" [SeekEntry.mk 0 5] "Stable").1 =
        .error (.nonRetriable
          ("The consumer group must have no running instances, current state: " ++ "Stable")) ∧
      (setOffsets "g" "t" [SeekEntry.mk 0 5] "Stable").2 =
        [ConsumerOp.subscribe "t", ConsumerOp.describeGroup]) ∧
    (("Stable" = "Empty" ∨ "Stable" = "Dead") →
      (setOffsets "g" "t" [SeekEntry.mk 0 5] "Stable").1 = .ok () ∧
      ∀ p ∈ [SeekEntry.mk 0 5], ConsumerOp.seek "t" p.partition p.offset ∈
        (setOffsets "g" "t" [SeekEntry.mk 0 5] "Stable").2) ∧
    ("Stable" ≠ "Empty" → "Stable" ≠ "Dead" →
      (resetOffsets roEnvW "g" "t" false "Stable").2 =
        [ConsumerOp.subscribe "t", ConsumerOp.describeGroup]) ∧
    (("Stable" = "Empty" ∨ "Stable" = "Dead") →
      ∀ q ∈ findTopicPartitions roEnvW "t",
        ConsumerOp.seek "t" q (roEnvW.defaultOffset false) ∈
          (resetOffsets roEnvW "g" "t" false "Stable").2)) :=
  ⟨⟨by decide, by decide, by decide, by decide⟩,
    setOffsets_requires_terminal_group "g" "t" [SeekEntry.mk 0 5] "Stable" false roEnvW
      (by decide) (by decide) (by decide) (by decide)⟩

/-! ## deleteGroups helper lemmas -/

theorem flatMap_congr_mem {α β : Type} {l : List α} {f g : α → List β}
    (h : ∀ a ∈ l, f a = g a) : l.flatMap f = l.flatMap g := by
  induction l with
  | nil => rfl
  | cons x t ih =>
    rw [List.flatMap_cons, List.flatMap_cons, h x (by simp),
      ih (fun a ha => h a (by simp [ha]))]

/-- Partitioning a list by the distinct values a key function takes on it
and concatenating the blocks permutes the list. -/
theorem flatMap_filter_perm {α β : Type} [DecidableEq β] (f : α → β)
    (nodes : List β) (ids : List α) (hnd : nodes.Nodup)
    (hcov : ∀ g ∈ ids, f g ∈ nodes) :
    List.Perm (nodes.flatMap (fun n => ids.filter (fun g => f g = n))) ids := by
  induction nodes generalizing ids with
  | nil =>
    have hids : ids = [] := by
      cases ids with
      | nil => rfl
      | cons a t => exact absurd (hcov a (by simp)) (by simp)
    simp [hids]
  | cons n ns ih =>
    have hn : n ∉ ns := (List.nodup_cons.mp hnd).1
    have hnd' : ns.Nodup := (List.nodup_cons.mp hnd).2
    have hrw : ∀ n' ∈ ns, ids.filter (fun g => f g = n') =
        (ids.filter (fun g => !(f g = n))).filter (fun g => f g = n') := by
      intro n' hn'
      rw [List.filter_filter]
      apply List.filter_congr
      intro x _
      by_cases hfx : f x = n'
      · have hne : ¬ (f x = n) := by
          rw [hfx]
          intro hc
          exact hn (hc ▸ hn')
        simp [hfx, hne]
        exact fun hc => hn (hc ▸ hn')
      · simp [hfx]
    have hcov' : ∀ g ∈ ids.filter (fun g => !(f g = n)), f g ∈ ns := by
      intro g hg
      rcases List.mem_filter.mp hg with ⟨hgids, hgne⟩
      rcases List.mem_cons.mp (hcov g hgids) with h | h
      · exact absurd (by simpa using hgne) (by simp [h])
      · exact h
    have hsplit : (n :: ns).flatMap (fun n' => ids.filter (fun g => f g = n')) =
        ids.filter (fun g => f g = n) ++
          ns.flatMap (fun n' =>
            (ids.filter (fun g => !(f g = n))).filter (fun g => f g = n')) := by
      rw [List.flatMap_cons]
      congr 1
      exact flatMap_congr_mem hrw
    rw [hsplit]
    exact List.Perm.trans
      (List.Perm.append_left _ (ih _ hnd' hcov'))
      (List.filter_append_perm _ ids)

theorem dgNodes_nodup (env : DGEnv) (k : Nat) (ids : List String) :
    (dgNodes env k ids).Nodup :=
  ((List.perm_insertionSort _ _).nodup_iff).mpr (List.nodup_dedup _)

theorem coord_mem_dgNodes (env : DGEnv) (k : Nat) {ids : List String} {g : String}
    (hg : g ∈ ids) : env.coordOf k g ∈ dgNodes env k ids := by
  unfold dgNodes
  rw [(List.perm_insertionSort _ _).mem_iff, List.mem_dedup]
  exact List.mem_map_of_mem _ hg

/-- Membership in the flattened fan-out: the rows are exactly the response
rows of the requested group ids. -/
theorem mem_dgFanOut (env : DGEnv) (k : Nat) (ids : List String) (r : DGResult) :
    r ∈ dgFanOut env k ids ↔ ∃ g ∈ ids, r = mkRow env k g := by
  unfold dgFanOut
  simp only [List.mem_flatMap, List.mem_map, List.mem_filter]
  constructor
  · rintro ⟨n, _, g, ⟨hg, _⟩, rfl⟩
    exact ⟨g, hg, rfl⟩
  · rintro ⟨g, hg, rfl⟩
    exact ⟨env.coordOf k g, coord_mem_dgNodes env k hg, g, ⟨hg, by simp⟩, rfl⟩

/-- The group ids of the flattened fan-out rows are a permutation of the
requested ids: each requested id is covered exactly once per occurrence. -/
theorem dgFanOut_ids_perm (env : DGEnv) (k : Nat) (ids : List String) :
    List.Perm ((dgFanOut env k ids).map DGResult.groupId) ids := by
  unfold dgFanOut
  rw [List.map_flatMap]
  have hmap : ∀ n : Nat,
      ((ids.filter (fun g => env.coordOf k g = n)).map (mkRow env k)).map DGResult.groupId
        = ids.filter (fun g => env.coordOf k g = n) := by
    intro n
    rw [List.map_map]
    have hcomp : (DGResult.groupId ∘ mkRow env k) = id := rfl
    rw [hcomp, List.map_id]
  rw [flatMap_congr_mem (fun n _ => hmap n)]
  exact flatMap_filter_perm (env.coordOf k) _ ids (dgNodes_nodup env k ids)
    (fun g hg => coord_mem_dgNodes env k hg)

theorem dgAttempt_fst_cloned (env : DGEnv) (k : Nat) (s : DGState) :
    (dgAttempt env k s).1.cloned = dgStep env k s.cloned := by
  cases hc : s.cloned.isEmpty
  · cases hcall : env.callErr k
    · simp only [dgAttempt, dgStep, dgNext, hc, hcall, Bool.false_eq_true, if_false]
      split <;> rfl
    · simp only [dgAttempt, dgStep, hc, hcall, Bool.false_eq_true, if_false]
      split <;> rfl
  · simp [dgAttempt, dgStep, hc]

theorem dgAttempt_snd (env : DGEnv) (k : Nat) (s : DGState) :
    (dgAttempt env k s).2 = dgOutcome env k s.cloned := by
  cases hc : s.cloned.isEmpty
  · cases hcall : env.callErr k
    · simp only [dgAttempt, dgOutcome, hc, hcall, Bool.false_eq_true, if_false]
      split <;> rfl
    · simp only [dgAttempt, dgOutcome, hc, hcall, Bool.false_eq_true, if_false]
      split <;> rfl
  · simp [dgAttempt, dgOutcome, hc]

/-- Membership in the shrunken target set: exactly the requested ids whose
response row failed. -/
theorem mem_dgNext (env : DGEnv) (k : Nat) (cur : List String) (g : String) :
    g ∈ dgNext env k cur ↔ g ∈ cur ∧ ¬ env.ec k g = 0 := by
  unfold dgNext
  simp only [List.mem_map, List.mem_filter]
  constructor
  · rintro ⟨r, ⟨hrf, hrc⟩, rfl⟩
    rcases (mem_dgFanOut env k cur r).mp hrf with ⟨g', hg', rfl⟩
    exact ⟨hg', by simpa [mkRow] using hrc⟩
  · rintro ⟨hg, hec⟩
    exact ⟨mkRow env k g, ⟨(mem_dgFanOut env k cur _).mpr ⟨g, hg, rfl⟩,
      by simpa [mkRow] using hec⟩, rfl⟩

theorem dgTargets_succ_subset (env : DGEnv) (ids : List String) (k : Nat) :
    ∀ g ∈ dgTargets env ids (k + 1), g ∈ dgTargets env ids k := by
  intro g hg
  have hg' : g ∈ dgStep env k (dgTargets env ids k) := hg
  unfold dgStep at hg'
  by_cases hc : (dgTargets env ids k).isEmpty
  · simpa [hc] using hg'
  · rw [Bool.not_eq_true] at hc
    simp only [hc, Bool.false_eq_true, if_false] at hg'
    cases hcall : env.callErr k
    · rw [hcall] at hg'
      exact ((mem_dgNext env k _ g).mp hg').1
    · rw [hcall] at hg'
      exact hg'

theorem dgTargets_subset_of_le (env : DGEnv) (ids : List String) {k m : Nat}
    (h : k ≤ m) : ∀ g ∈ dgTargets env ids m, g ∈ dgTargets env ids k := by
  induction m with
  | zero =>
    cases Nat.le_zero.mp h
    exact fun g hg => hg
  | succ m ih =>
    rcases Nat.lt_or_ge k (m + 1) with hlt | hge
    · exact fun g hg =>
        ih (Nat.lt_succ_iff.mp hlt) g (dgTargets_succ_subset env ids m g hg)
    · have hk : k = m + 1 := Nat.le_antisymm h hge
      subst hk
      exact fun g hg => hg

/-! ## C3 -/

/-- C3: after an attempt whose flattened per-group results contain a failed
entry, the retry target set of the next attempt is exactly the set of group
ids that failed in that attempt (succeeded ids are never re-attempted on any
later attempt), and the attempt raises a retriable aggregate error carrying
the per-group `{groupId, errorCode, error}` failure rows. -/
theorem deleteGroups_shrinks_to_failed (env : DGEnv) (ids : List String) (k : Nat)
    (tr : List NetOp)
    (hcall : env.callErr k = none)
    (hne : dgTargets env ids k ≠ [])
    (hfail : ∃ g ∈ dgTargets env ids k, env.ec k g ≠ 0) :
    (∀ g, g ∈ dgTargets env ids (k + 1) ↔
      g ∈ dgTargets env ids k ∧ env.ec k g ≠ 0) ∧
    (∃ failures,
      (dgAttempt env k ⟨dgTargets env ids k, tr⟩).2 =
        .retriable (.aggregate "Error in DeleteGroups" failures) ∧
      ∀ r, r ∈ failures ↔
        ∃ g ∈ dgTargets env ids k, env.ec k g ≠ 0 ∧ r = mkRow env k g) ∧
    (∀ g ∈ dgTargets env ids k, env.ec k g = 0 →
      ∀ m, k < m → g ∉ dgTargets env ids m) := by
  have hc : (dgTargets env ids k).isEmpty = false := by
    rw [List.isEmpty_eq_false]
    exact hne
  have hstep : dgTargets env ids (k + 1) = dgNext env k (dgTargets env ids k) := by
    show dgStep env k (dgTargets env ids k) = _
    simp [dgStep, hc, hcall]
  have hiff : ∀ g, g ∈ dgTargets env ids (k + 1) ↔
      g ∈ dgTargets env ids k ∧ env.ec k g ≠ 0 := by
    intro g
    rw [hstep]
    exact mem_dgNext env k _ g
  refine ⟨hiff, ?_, ?_⟩
  · have herr : ((dgFanOut env k (dgTargets env ids k)).filter
        (fun r => !(r.errorCode = 0))).isEmpty = false := by
      rcases hfail with ⟨g, hg, hec⟩
      rw [List.isEmpty_eq_false]
      intro hnil
      have hmem : mkRow env k g ∈ (dgFanOut env k (dgTargets env ids k)).filter
          (fun r => !(r.errorCode = 0)) := by
        rw [List.mem_filter]
        exact ⟨(mem_dgFanOut env k _ _).mpr ⟨g, hg, rfl⟩, by simpa [mkRow] using hec⟩
      rw [hnil] at hmem
      cases hmem
    refine ⟨(dgFanOut env k (dgTargets env ids k)).filter (fun r => !(r.errorCode = 0)),
      ?_, ?_⟩
    · rw [dgAttempt_snd]
      simp [dgOutcome, hc, hcall, herr]
    · intro r
      rw [List.mem_filter]
      constructor
      · rintro ⟨hrf, hrc⟩
        rcases (mem_dgFanOut env k _ r).mp hrf with ⟨g, hg, rfl⟩
        exact ⟨g, hg, by simpa [mkRow] using hrc, rfl⟩
      · rintro ⟨g, hg, hec, rfl⟩
        exact ⟨(mem_dgFanOut env k _ _).mpr ⟨g, hg, rfl⟩, by simpa [mkRow] using hec⟩
  · intro g hg hec m hkm hgm
    have hnot : g ∉ dgTargets env ids (k + 1) := by
      intro hg1
      exact ((hiff g).mp hg1).2 hec
    exact hnot (dgTargets_subset_of_le env ids (Nat.succ_le_of_lt hkm) g hgm)

/-- C3 witness: the concrete split environment, attempt 0. -/
theorem deleteGroups_shrinks_to_failed_witness :
    (dgEnvSplit.callErr 0 = none ∧ dgTargets dgEnvSplit ["g1", "g2"] 0 ≠ [] ∧
      ∃ g ∈ dgTargets dgEnvSplit ["g1", "g2"] 0, dgEnvSplit.ec 0 g ≠ 0) ∧
    ((∀ g, g ∈ dgTargets dgEnvSplit ["g1", "g2"] (0 + 1) ↔
      g ∈ dgTargets dgEnvSplit ["g1", "g2"] 0 ∧ dgEnvSplit.ec 0 g ≠ 0) ∧
    (∃ failures,
      (dgAttempt dgEnvSplit 0 ⟨dgTargets dgEnvSplit ["g1", "g2"] 0, []⟩).2 =
        .retriable (.aggregate "Error in DeleteGroups" failures) ∧
      ∀ r, r ∈ failures ↔
        ∃ g ∈ dgTargets dgEnvSplit ["g1", "g2"] 0, dgEnvSplit.ec 0 g ≠ 0 ∧
          r = mkRow dgEnvSplit 0 g) ∧
    (∀ g ∈ dgTargets dgEnvSplit ["g1", "g2"] 0, dgEnvSplit.ec 0 g = 0 →
      ∀ m, 0 < m → g ∉ dgTargets dgEnvSplit ["g1", "g2"] m)) :=
  ⟨⟨by decide, by decide, by decide⟩,
    deleteGroups_shrinks_to_failed dgEnvSplit ["g1", "g2"] 0 []
      (by decide) (by decide) (by decide)⟩

/-- A successful retried `deleteGroups` run returns the fan-out rows of the
final attempt's target set (in which every row succeeded). -/
theorem dg_run_ok (env : DGEnv) (ids : List String) :
    ∀ (fuel k : Nat) (s : DGState) (rs : List DGResult),
    s.cloned = dgTargets env ids k → s.cloned ≠ [] →
    (retrier (dgAttempt env) fuel k s).2 = .ok rs →
    ∃ m, dgTargets env ids m ≠ [] ∧ env.callErr m = none ∧
      ((dgFanOut env m (dgTargets env ids m)).filter
        (fun r => !(r.errorCode = 0))).isEmpty = true ∧
      rs = dgFanOut env m (dgTargets env ids m) := by
  intro fuel
  induction fuel with
  | zero =>
    intro k s rs hcl hne hok
    rcases hpair : dgAttempt env k s with ⟨s', out⟩
    have hout : out = dgOutcome env k s.cloned := by
      have h := dgAttempt_snd env k s
      rw [hpair] at h
      exact h
    subst hout
    have hc : s.cloned.isEmpty = false := List.isEmpty_eq_false.mpr hne
    cases hcall : env.callErr k with
    | some t =>
      by_cases hretri : t = ErrType.NOT_CONTROLLER ∨ t = ErrType.COORDINATOR_NOT_AVAILABLE
      · have houtc : dgOutcome env k s.cloned = .retriable (.protocolE t) := by
          simp [dgOutcome, hc, hcall, hretri]
        rw [houtc] at hpair
        simp [retrier, hpair] at hok
      · have houtc : dgOutcome env k s.cloned = .bail (.protocolE t) := by
          simp [dgOutcome, hc, hcall, hretri]
        rw [houtc] at hpair
        simp [retrier, hpair] at hok
    | none =>
      cases herr : ((dgFanOut env k s.cloned).filter
          (fun r => !(r.errorCode = 0))).isEmpty with
      | true =>
        have houtc : dgOutcome env k s.cloned = .ok (dgFanOut env k s.cloned) := by
          simp [dgOutcome, hc, hcall, herr]
        rw [houtc] at hpair
        simp only [retrier, hpair] at hok
        refine ⟨k, hcl ▸ hne, hcall, hcl ▸ herr, ?_⟩
        rw [← hcl]
        exact (Except.ok.injEq _ _ ▸ hok).symm
      | false =>
        have houtc : dgOutcome env k s.cloned = .retriable
            (.aggregate "Error in DeleteGroups"
              ((dgFanOut env k s.cloned).filter (fun r => !(r.errorCode = 0)))) := by
          simp [dgOutcome, hc, hcall, herr]
        rw [houtc] at hpair
        simp [retrier, hpair] at hok
  | succ fuel ih =>
    intro k s rs hcl hne hok
    rcases hpair : dgAttempt env k s with ⟨s', out⟩
    have hout : out = dgOutcome env k s.cloned := by
      have h := dgAttempt_snd env k s
      rw [hpair] at h
      exact h
    subst hout
    have hcl' : s'.cloned = dgStep env k s.cloned := by
      have h := dgAttempt_fst_cloned env k s
      rw [hpair] at h
      exact h
    have hc : s.cloned.isEmpty = false := List.isEmpty_eq_false.mpr hne
    cases hcall : env.callErr k with
    | some t =>
      by_cases hretri : t = ErrType.NOT_CONTROLLER ∨ t = ErrType.COORDINATOR_NOT_AVAILABLE
      · have houtc : dgOutcome env k s.cloned = .retriable (.protocolE t) := by
          simp [dgOutcome, hc, hcall, hretri]
        rw [houtc] at hpair
        simp only [retrier, hpair] at hok
        have hcl'' : s'.cloned = dgTargets env ids (k + 1) := by
          rw [hcl']
          show _ = dgStep env k (dgTargets env ids k)
          rw [hcl]
        have hne' : s'.cloned ≠ [] := by
          rw [hcl']
          simp [dgStep, hc, hcall]
          exact hne
        exact ih (k + 1) s' rs hcl'' hne' hok
      · have houtc : dgOutcome env k s.cloned = .bail (.protocolE t) := by
          simp [dgOutcome, hc, hcall, hretri]
        rw [houtc] at hpair
        simp [retrier, hpair] at hok
    | none =>
      cases herr : ((dgFanOut env k s.cloned).filter
          (fun r => !(r.errorCode = 0))).isEmpty with
      | true =>
        have houtc : dgOutcome env k s.cloned = .ok (dgFanOut env k s.cloned) := by
          simp [dgOutcome, hc, hcall, herr]
        rw [houtc] at hpair
        simp only [retrier, hpair] at hok
        refine ⟨k, hcl ▸ hne, hcall, hcl ▸ herr, ?_⟩
        rw [← hcl]
        exact (Except.ok.injEq _ _ ▸ hok).symm
      | false =>
        have houtc : dgOutcome env k s.cloned = .retriable
            (.aggregate "Error in DeleteGroups"
              ((dgFanOut env k s.cloned).filter (fun r => !(r.errorCode = 0)))) := by
          simp [dgOutcome, hc, hcall, herr]
        rw [houtc] at hpair
        simp only [retrier, hpair] at hok
        have hcl'' : s'.cloned = dgTargets env ids (k + 1) := by
          rw [hcl']
          show dgStep env k s.cloned = dgStep env k (dgTargets env ids k)
          rw [hcl]
        have hstep : dgStep env k s.cloned = dgNext env k s.cloned := by
          simp [dgStep, hc, hcall]
        have hne' : s'.cloned ≠ [] := by
          rw [hcl', hstep]
          unfold dgNext
          intro hnil
          rw [List.map_eq_nil_iff] at hnil
          exact List.isEmpty_eq_false.mp herr hnil
        exact ih (k + 1) s' rs hcl'' hne' hok

/-! ## C2 -/

/-- C2 counterexample: two distinct group ids, where g2 fails on attempt 0
and everything succeeds on attempt 1.  Attempt 0 raises the aggregate error
and shrinks the target set to ["g2"], so the call eventually succeeds after
a partially-failed attempt — but the resolved value holds a single entry:
it has length 1, not 2, and does not cover "g1", which succeeded on the
earlier attempt (`results` is overwritten, not accumulated). -/
theorem deleteGroups_final_attempt_only :
    (dgOutcome dgEnvSplit 0 ["g1", "g2"] =
      .retriable (.aggregate "Error in DeleteGroups" [DGResult.mk "g2" 1 ""])) ∧
    dgTargets dgEnvSplit ["g1", "g2"] 1 = ["g2"] ∧
    (deleteGroups (.arr [.str "g1", .str "g2"]) dgEnvSplit 5).1 =
      .ok [DGResult.mk "g2" 0 ""] ∧
    [DGResult.mk "g2" 0 ""].length = 1 ∧
    ¬ ∃ r ∈ [DGResult.mk "g2" 0 ""], r.groupId = "g1" :=
  ⟨by decide, by decide, by decide, by decide, by decide⟩

/-- C2 amended: a `deleteGroups` call on a non-empty all-string id array
that resolves successfully returns the per-group rows of the final
attempt's target set: the returned group ids are a permutation of the ids
still pending at that attempt (not necessarily of all originally requested
ids), and every returned row is that group's successful response row. -/
theorem deleteGroups_result_covers_final_attempt (l : List JsVal) (env : DGEnv)
    (fuel : Nat) (rs : List DGResult)
    (hstr : l.all JsVal.isString = true) (hne : l ≠ [])
    (hok : (deleteGroups (.arr l) env fuel).1 = .ok rs) :
    ∃ m, List.Perm (rs.map DGResult.groupId)
        (dgTargets env (l.filterMap JsVal.asString) m) ∧
      ∀ r ∈ rs, r.errorCode = 0 ∧ r = mkRow env m r.groupId := by
  have hinv : (l.any fun g => !g.isString) = false := by
    rw [List.any_eq_false]
    intro x hx
    simpa using List.all_eq_true.mp hstr x hx
  have hids : l.filterMap JsVal.asString ≠ [] := by
    cases l with
    | nil => exact absurd rfl hne
    | cons a t =>
      have ha : a.isString = true := List.all_eq_true.mp hstr a (by simp)
      cases a <;> simp_all [JsVal.isString, JsVal.asString, List.filterMap_cons]
  rcases hrun : retrier (dgAttempt env) fuel 0 ⟨l.filterMap JsVal.asString, []⟩
    with ⟨sfin, res⟩
  have hres : res = .ok rs := by
    simp only [deleteGroups, hinv, Bool.false_eq_true, if_false, hrun] at hok
    exact hok
  have hrun2 : (retrier (dgAttempt env) fuel 0
      ⟨l.filterMap JsVal.asString, []⟩).2 = .ok rs := by
    rw [hrun, hres]
  rcases dg_run_ok env (l.filterMap JsVal.asString) fuel 0
      ⟨l.filterMap JsVal.asString, []⟩ rs rfl hids hrun2 with
    ⟨m, _, _, hall, hfan⟩
  refine ⟨m, ?_, ?_⟩
  · rw [hfan]
    exact dgFanOut_ids_perm env m _
  · intro r hr
    rw [hfan] at hr
    rcases (mem_dgFanOut env m _ r).mp hr with ⟨g, _, rfl⟩
    have hec : env.ec m g = 0 := by
      by_contra hecne
      have hmem : mkRow env m g ∈ (dgFanOut env m
          (dgTargets env (l.filterMap JsVal.asString) m)).filter
          (fun r => !(r.errorCode = 0)) := by
        rw [List.mem_filter]
        exact ⟨hr, by simpa [mkRow] using hecne⟩
      rw [List.isEmpty_iff.mp hall] at hmem
      cases hmem
    exact ⟨by simpa [mkRow] using hec, by simp [mkRow]⟩

/-- C2 amended witness: the concrete split-environment run; the final
attempt (attempt 1) targets exactly ["g2"]. -/
theorem deleteGroups_result_covers_final_attempt_witness :
    ([JsVal.str "g1", JsVal.str "g2"].all JsVal.isString = true ∧
      [JsVal.str "g1", JsVal.str "g2"] ≠ ([] : List JsVal) ∧
      (deleteGroups (.arr [.str "g1", .str "g2"]) dgEnvSplit 5).1 =
        .ok [DGResult.mk "g2" 0 ""]) ∧
    ∃ m, List.Perm ([DGResult.mk "g2" 0 ""].map DGResult.groupId)
        (dgTargets dgEnvSplit
          ([JsVal.str "g1", JsVal.str "g2"].filterMap JsVal.asString) m) ∧
      ∀ r ∈ [DGResult.mk "g2" 0 ""], r.errorCode = 0 ∧
        r = mkRow dgEnvSplit m r.groupId :=
  ⟨⟨by decide, by decide, by decide⟩,
    deleteGroups_result_covers_final_attempt [.str "g1", .str "g2"] dgEnvSplit 5
      [DGResult.mk "g2" 0 ""] (by decide) (by decide) (by decide)⟩

/-! ## C8 -/

/-- C8 counterexample: the empty array passes both validation checks (an
empty JS array is truthy and is an array), so `deleteGroups([])` resolves
to an empty result instead of raising a validation error; no network
operation is performed either way. -/
theorem deleteGroups_empty_array_resolves :
    deleteGroups (.arr []) dgEnvTrivial 3 = (.ok [], []) ∧
    ∀ e, (deleteGroups (.arr []) dgEnvTrivial 3).1 ≠ .error e := by
  have h : deleteGroups (.arr []) dgEnvTrivial 3 = (.ok [], []) := by decide
  refine ⟨h, fun e => ?_⟩
  rw [h]
  simp

/-- C8 amended: `deleteGroups` validates that its argument is an array of
strings before any network call — a non-array argument, or an array with a
non-string element, raises a synchronous validation error with an empty
network trace — while the empty array is not rejected: it resolves to an
empty result list, also without any metadata refresh or broker call. -/
theorem deleteGroups_validates_before_network (env : DGEnv) (fuel : Nat) :
    (∀ v, deleteGroups (.notArray v) env fuel =
      (.error (.nonRetriable ("Invalid groupIds array " ++ v.display)), [])) ∧
    (∀ l, (∃ x ∈ l, x.isString = false) →
      deleteGroups (.arr l) env fuel =
        (.error (.nonRetriable "Invalid groupId name: true"), [])) ∧
    deleteGroups (.arr []) env fuel = (.ok [], []) := by
  refine ⟨fun v => rfl, ?_, ?_⟩
  · intro l hx
    rcases hx with ⟨x, hxl, hxf⟩
    have hinv : (l.any fun g => !g.isString) = true :=
      List.any_eq_true.mpr ⟨x, hxl, by simp [hxf]⟩
    simp only [deleteGroups, hinv, if_true]
    rfl
  · cases fuel <;> rfl

/-- C8 witness: the amended statement at a concrete environment. -/
theorem deleteGroups_validates_before_network_witness :
    (∀ v, deleteGroups (.notArray v) dgEnvTrivial 3 =
      (.error (.nonRetriable ("Invalid groupIds array " ++ v.display)), [])) ∧
    (∀ l, (∃ x ∈ l, x.isString = false) →
      deleteGroups (.arr l) dgEnvTrivial 3 =
        (.error (.nonRetriable "Invalid groupId name: true"), [])) ∧
    deleteGroups (.arr []) dgEnvTrivial 3 = (.ok [], []) :=
  deleteGroups_validates_before_network dgEnvTrivial 3

/-! ## C9 -/

/-- C9: the validation message of `deleteGroups` stringifies the boolean
result of the `.some(...)` element test instead of the offending value: for
the input ["ok", 42] the raised message is "Invalid groupId name: true",
which does not contain the offending id value 42 — it is merely a boolean
indicator, contradicting the spec's promise that validation messages echo
the offending field/value (every other validator in the file uses
`find` and interpolates the offending record). -/
theorem deleteGroups_message_lacks_offending_value :
    (deleteGroups (.arr [.str "ok", .num 42]) dgEnvTrivial 3).1 =
      .error (.nonRetriable "Invalid groupId name: true") ∧
    (deleteGroups (.arr [.str "ok", .num 42]) dgEnvTrivial 3).2 = [] ∧
    ¬ List.IsInfix (JsVal.num 42).display.data "Invalid groupId name: true".data :=
  ⟨by decide, by decide, by decide⟩

/-! ## C7 -/

/-- Evaluating `find` over the response rows of an offsets query hits the row of the
requested partition. -/
theorem find?_partOffset (f : Nat → Int) (l : List Nat) (p : Nat) (hp : p ∈ l) :
    ((l.map fun q => PartOffset.mk q (f q)).find? fun lp => lp.partition = p) =
      some (PartOffset.mk p (f p)) := by
  induction l with
  | nil => cases hp
  | cons q t ih =>
    rw [List.map_cons]
    by_cases hq : q = p
    · subst hq
      exact List.find?_cons_of_pos _ (by simp)
    · rw [List.find?_cons_of_neg _ (by simp [hq])]
      exact ih (by
        rcases List.mem_cons.mp hp with h | h
        · exact absurd h.symm hq
        · exact h)

/-- The entries built by the body of `fetchTopicOffsets`, in closed form. -/
theorem ftoEntries_repr (env : FTOEnv) :
    ftoEntries env = env.partitionIds.map (fun p =>
      TopicOffsetEntry.mk p (env.highOf p) (env.highOf p) (env.lowOf p)) := by
  unfold ftoEntries
  rw [List.map_map]
  apply List.map_congr_left
  intro p hp
  simp only [Function.comp]
  rw [find?_partOffset env.lowOf _ p hp]
  rfl

/-- A successful retried `fetchTopicOffsets` run returns the paired
entries. -/
theorem fto_run_ok (env : FTOEnv) :
    ∀ (fuel k : Nat) (entries : List TopicOffsetEntry),
    (retrier (ftoBody env) fuel k ()).2 = .ok entries → entries = ftoEntries env := by
  intro fuel
  induction fuel with
  | zero =>
    intro k entries hok
    cases hcall : env.fetchErr k with
    | some t =>
      by_cases ht : t = ErrType.UNKNOWN_TOPIC_OR_PARTITION <;>
        simp [retrier, ftoBody, hcall, ht] at hok
    | none =>
      simp only [retrier, ftoBody, hcall] at hok
      exact (Except.ok.inj hok).symm
  | succ fuel ih =>
    intro k entries hok
    cases hcall : env.fetchErr k with
    | some t =>
      by_cases ht : t = ErrType.UNKNOWN_TOPIC_OR_PARTITION
      · simp only [retrier, ftoBody, hcall, ht, if_true] at hok
        exact ih (k + 1) entries hok
      · simp [retrier, ftoBody, hcall, ht] at hok
    | none =>
      simp only [retrier, ftoBody, hcall] at hok
      exact (Except.ok.inj hok).symm

/-- C7: a successful `fetchTopicOffsets(topic)` returns exactly one entry
per metadata partition id, and every entry satisfies offset = high,
low ≤ high (whenever the reported watermarks do), with high the from-end
and low the from-beginning offset reported for that partition. -/
theorem fetchTopicOffsets_entries (topic : String) (env : FTOEnv) (fuel : Nat)
    (entries : List TopicOffsetEntry)
    (hok : fetchTopicOffsets topic env fuel = .ok entries)
    (hlh : ∀ p ∈ env.partitionIds, env.lowOf p ≤ env.highOf p) :
    entries.length = env.partitionIds.length ∧
    entries.map TopicOffsetEntry.partition = env.partitionIds ∧
    ∀ e ∈ entries, e.offset = e.high ∧ e.low ≤ e.high ∧
      e.high = env.highOf e.partition ∧ e.low = env.lowOf e.partition := by
  have htop : ¬ topic = "" := by
    intro hc
    rw [fetchTopicOffsets, if_pos hc] at hok
    cases hok
  rw [fetchTopicOffsets, if_neg htop] at hok
  have hent : entries = ftoEntries env := fto_run_ok env fuel 0 entries hok
  subst hent
  rw [ftoEntries_repr]
  refine ⟨by rw [List.length_map], ?_, ?_⟩
  · rw [List.map_map]
    have hcomp : (TopicOffsetEntry.partition ∘ fun p =>
        TopicOffsetEntry.mk p (env.highOf p) (env.highOf p) (env.lowOf p)) = id := rfl
    rw [hcomp, List.map_id]
  · intro e he
    rcases List.mem_map.mp he with ⟨p, hp, rfl⟩
    exact ⟨rfl, hlh p hp, rfl, rfl⟩

/-- C7 witness: two partitions with watermarks low = 2 and high = 10. -/
theorem fetchTopicOffsets_entries_witness :
    (fetchTopicOffsets "t" ftoEnvW 0 =
      .ok [TopicOffsetEntry.mk 0 10 10 2, TopicOffsetEntry.mk 1 10 10 2] ∧
      ∀ p ∈ ftoEnvW.partitionIds, ftoEnvW.lowOf p ≤ ftoEnvW.highOf p) ∧
    ([TopicOffsetEntry.mk 0 10 10 2, TopicOffsetEntry.mk 1 10 10 2].length =
      ftoEnvW.partitionIds.length ∧
    [TopicOffsetEntry.mk 0 10 10 2, TopicOffsetEntry.mk 1 10 10 2].map
      TopicOffsetEntry.partition = ftoEnvW.partitionIds ∧
    ∀ e ∈ [TopicOffsetEntry.mk 0 10 10 2, TopicOffsetEntry.mk 1 10 10 2],
      e.offset = e.high ∧ e.low ≤ e.high ∧
      e.high = ftoEnvW.highOf e.partition ∧ e.low = ftoEnvW.lowOf e.partition) :=
  ⟨⟨by decide, by decide⟩,
    fetchTopicOffsets_entries "t" ftoEnvW 0
      [TopicOffsetEntry.mk 0 10 10 2, TopicOffsetEntry.mk 1 10 10 2]
      (by decide) (by decide)⟩

/-! ## C5 and C6 -/

theorem waitForPoll_first_ok {α : Type} (cb : Nat → Except AdminErr (Option α))
    (msg : String) (fuel i : Nat) (a : α) (h : cb i = .ok (some a)) :
    waitForPoll cb msg fuel i = .ok a := by
  cases fuel <;> simp [waitForPoll, h]

theorem waitForPoll_first_error {α : Type} (cb : Nat → Except AdminErr (Option α))
    (msg : String) (fuel i : Nat) (e : AdminErr) (h : cb i = .error e) :
    waitForPoll cb msg fuel i = .error e := by
  cases fuel <;> simp [waitForPoll, h]

theorem waitForPoll_all_none {α : Type} (cb : Nat → Except AdminErr (Option α))
    (msg : String) (h : ∀ j, cb j = .ok (none : Option α)) :
    ∀ fuel i, waitForPoll cb msg fuel i = .error (.waitTimeout msg) := by
  intro fuel
  induction fuel with
  | zero =>
    intro i
    simp [waitForPoll, h i]
  | succ fuel ih =>
    intro i
    simp only [waitForPoll, h i]
    exact ih (i + 1)

/-- The body of `createTopics` when the controller is reachable, every
requested name is fresh, and the first leader-readiness poll succeeds. -/
theorem ctBody_fresh_ok (env : CTEnv) (names : List String) (innerFuel : Nat)
    (ex : List String)
    (hctrl : env.ctrlErr 0 = none) (hmeta : env.metaOut 0 0 = none)
    (hf : ∀ t ∈ names, ex.contains t = false) :
    ctBody env names true innerFuel 0 ex = (ex ++ names, .ok true) := by
  have hany : (names.any fun t => ex.contains t) = false := by
    rw [List.any_eq_false]
    intro t ht
    simpa using hf t ht
  have hpoll : retryOnLeaderNotAvailable
      (fun i => match env.metaOut 0 i with
        | none => .ok ()
        | some t => .error (.protocolE t))
      "Timed out while waiting for topic leaders" innerFuel = .ok () := by
    unfold retryOnLeaderNotAvailable
    apply waitForPoll_first_ok
    simp [hmeta]
  simp only [ctBody, hctrl, hany, Bool.false_eq_true, if_false, if_true, hpoll]

/-- The body of `createTopics` when one of the requested names already
exists: the broker call raises `TOPIC_ALREADY_EXISTS` and the catch block
returns `false`. -/
theorem ctBody_exists_false (env : CTEnv) (names : List String) (innerFuel : Nat)
    (ex : List String) (k : Nat)
    (hctrl : env.ctrlErr k = none)
    (hx : ∃ t ∈ names, ex.contains t = true) :
    ctBody env names true innerFuel k ex = (ex, .ok false) := by
  have hany : (names.any fun t => ex.contains t) = true := by
    rcases hx with ⟨t, ht, hc⟩
    exact List.any_eq_true.mpr ⟨t, ht, hc⟩
  simp only [ctBody, hctrl, hany, if_true]
  rfl

/-- C5: for a valid topics argument (with a benign first attempt),
`createTopics` resolves to `true` when the broker create succeeds — adding
the new names to the broker's topic set — and resolves to `false` (no
rejection) when the broker raises `TOPIC_ALREADY_EXISTS`; hence calling it
twice with the same topic names yields `true` then `false`. -/
theorem createTopics_true_then_false (l : List TopicCfg) (env : CTEnv)
    (fuel innerFuel : Nat) (existing : List String)
    (hval : createTopicsValidate (.arr l) = none)
    (hctrl : env.ctrlErr 0 = none) (hmeta : env.metaOut 0 0 = none) :
    ((∀ t ∈ l.filterMap (fun c => c.topic.asString), existing.contains t = false) →
      createTopics (.arr l) true env fuel innerFuel existing =
        (.ok true, existing ++ l.filterMap (fun c => c.topic.asString))) ∧
    ((∃ t ∈ l.filterMap (fun c => c.topic.asString), existing.contains t = true) →
      (createTopics (.arr l) true env fuel innerFuel existing).1 = .ok false) ∧
    (l.filterMap (fun c => c.topic.asString) ≠ [] →
      (∀ t ∈ l.filterMap (fun c => c.topic.asString), existing.contains t = false) →
      (createTopics (.arr l) true env fuel innerFuel existing).1 = .ok true ∧
      (createTopics (.arr l) true env fuel innerFuel
        (existing ++ l.filterMap (fun c => c.topic.asString))).1 = .ok false) := by
  have hfresh_run : ∀ ex : List String,
      (∀ t ∈ l.filterMap (fun c => c.topic.asString), ex.contains t = false) →
      createTopics (.arr l) true env fuel innerFuel ex =
        (.ok true, ex ++ l.filterMap (fun c => c.topic.asString)) := by
    intro ex hf
    have hbody := ctBody_fresh_ok env (l.filterMap (fun c => c.topic.asString))
      innerFuel ex hctrl hmeta hf
    simp only [createTopics, hval]
    cases fuel <;> simp [retrier, hbody]
  have hexists_run : ∀ ex : List String,
      (∃ t ∈ l.filterMap (fun c => c.topic.asString), ex.contains t = true) →
      (createTopics (.arr l) true env fuel innerFuel ex).1 = .ok false := by
    intro ex hx
    have hbody := ctBody_exists_false env (l.filterMap (fun c => c.topic.asString))
      innerFuel ex 0 hctrl hx
    simp only [createTopics, hval]
    cases fuel <;> simp [retrier, hbody]
  refine ⟨hfresh_run existing, hexists_run existing, fun hne hf => ?_⟩
  constructor
  · rw [hfresh_run existing hf]
  · apply hexists_run
    rcases List.exists_mem_of_ne_nil _ hne with ⟨t, ht⟩
    refine ⟨t, ht, ?_⟩
    simpa using Or.inr ht

/-- C5 witness: the same topic created twice against an initially empty
broker topic set. -/
theorem createTopics_true_then_false_witness :
    (createTopicsValidate (.arr [TopicCfg.mk (.str "t1")]) = none ∧
      ctEnvOk.ctrlErr 0 = none ∧ ctEnvOk.metaOut 0 0 = none) ∧
    (((∀ t ∈ [TopicCfg.mk (.str "t1")].filterMap (fun c => c.topic.asString),
        List.contains ([] : List String) t = false) →
      createTopics (.arr [TopicCfg.mk (.str "t1")]) true ctEnvOk 2 3 [] =
        (.ok true, [] ++ [TopicCfg.mk (.str "t1")].filterMap (fun c => c.topic.asString))) ∧
    ((∃ t ∈ [TopicCfg.mk (.str "t1")].filterMap (fun c => c.topic.asString),
        List.contains ([] : List String) t = true) →
      (createTopics (.arr [TopicCfg.mk (.str "t1")]) true ctEnvOk 2 3 []).1 = .ok false) ∧
    ([TopicCfg.mk (.str "t1")].filterMap (fun c => c.topic.asString) ≠ [] →
      (∀ t ∈ [TopicCfg.mk (.str "t1")].filterMap (fun c => c.topic.asString),
        List.contains ([] : List String) t = false) →
      (createTopics (.arr [TopicCfg.mk (.str "t1")]) true ctEnvOk 2 3 []).1 = .ok true ∧
      (createTopics (.arr [TopicCfg.mk (.str "t1")]) true ctEnvOk 2 3
        ([] ++ [TopicCfg.mk (.str "t1")].filterMap (fun c => c.topic.asString))).1 =
        .ok false)) :=
  ⟨⟨by decide, by decide, by decide⟩,
    createTopics_true_then_false [TopicCfg.mk (.str "t1")] ctEnvOk 2 3 []
      (by decide) (by decide) (by decide)⟩

/-- C6: the leader-readiness poll of `createTopics` is a separate bounded
loop: an error of type LEADER_NOT_AVAILABLE from the metadata query is
converted to the sentinel `false` so the loop continues (exhausting its own
budget fails with the message "Timed out while waiting for topic leaders"),
every other error propagates unchanged, and when the inner loop times out
`createTopics` fails with that distinct message, bailed immediately for
every outer retry budget — an error shape disjoint from the protocol errors
that outer retry exhaustion propagates. -/
theorem createTopics_leader_poll (fn : Nat → Except AdminErr Unit) (msg : String)
    (fuel : Nat) (l : List TopicCfg) (innerFuel outerFuel : Nat)
    (existing : List String)
    (hval : createTopicsValidate (.arr l) = none)
    (hfresh : ∀ t ∈ l.filterMap (fun c => c.topic.asString),
      existing.contains t = false) :
    ((∀ i, fn i = .error (.protocolE ErrType.LEADER_NOT_AVAILABLE)) →
      retryOnLeaderNotAvailable fn msg fuel = .error (.waitTimeout msg)) ∧
    (∀ e, fn 0 = .error e → e ≠ .protocolE ErrType.LEADER_NOT_AVAILABLE →
      retryOnLeaderNotAvailable fn msg fuel = .error e) ∧
    ((createTopics (.arr l) true ctEnvLeaderless outerFuel innerFuel existing).1 =
      .error (.waitTimeout "Timed out while waiting for topic leaders")) ∧
    (∀ t : ErrType, AdminErr.waitTimeout "Timed out while waiting for topic leaders" ≠
      AdminErr.protocolE t) := by
  refine ⟨?_, ?_, ?_, fun t h => by cases h⟩
  · intro hall
    unfold retryOnLeaderNotAvailable
    apply waitForPoll_all_none
    intro j
    simp [hall j]
  · intro e h0 hne
    unfold retryOnLeaderNotAvailable
    apply waitForPoll_first_error
    simp [h0, hne]
  · have hany : ((l.filterMap (fun c => c.topic.asString)).any
        fun t => existing.contains t) = false := by
      rw [List.any_eq_false]
      intro t ht
      simpa using hfresh t ht
    have hpoll : retryOnLeaderNotAvailable
        (fun _ => Except.error (AdminErr.protocolE ErrType.LEADER_NOT_AVAILABLE))
        "Timed out while waiting for topic leaders" innerFuel =
        .error (.waitTimeout "Timed out while waiting for topic leaders") := by
      unfold retryOnLeaderNotAvailable
      apply waitForPoll_all_none
      intro j
      simp
    have hbody : ctBody ctEnvLeaderless (l.filterMap (fun c => c.topic.asString))
        true innerFuel 0 existing =
        (existing ++ l.filterMap (fun c => c.topic.asString),
          .bail (.waitTimeout "Timed out while waiting for topic leaders")) := by
      simp only [ctBody, ctEnvLeaderless, hany, Bool.false_eq_true, if_false,
        if_true, hpoll]
      simp [ctCatch]
    simp only [createTopics, hval]
    cases outerFuel <;> simp [retrier, hbody]

/-- C6 witness: the concrete leaderless environment with an all-LNA poll
sequence and a distinct non-LNA error. -/
theorem createTopics_leader_poll_witness :
    (createTopicsValidate (.arr [TopicCfg.mk (.str "t1")]) = none ∧
      (∀ t ∈ [TopicCfg.mk (.str "t1")].filterMap (fun c => c.topic.asString),
        List.contains ([] : List String) t = false)) ∧
    (((∀ i, (fun _ => Except.error (AdminErr.protocolE ErrType.LEADER_NOT_AVAILABLE) :
          Nat → Except AdminErr Unit) i =
        .error (.protocolE ErrType.LEADER_NOT_AVAILABLE)) →
      retryOnLeaderNotAvailable
        (fun _ => Except.error (AdminErr.protocolE ErrType.LEADER_NOT_AVAILABLE))
        "m" 4 = .error (.waitTimeout "m")) ∧
    (∀ e, (fun _ => Except.error (AdminErr.protocolE ErrType.LEADER_NOT_AVAILABLE) :
          Nat → Except AdminErr Unit) 0 = .error e →
      e ≠ .protocolE ErrType.LEADER_NOT_AVAILABLE →
      retryOnLeaderNotAvailable
        (fun _ => Except.error (AdminErr.protocolE ErrType.LEADER_NOT_AVAILABLE))
        "m" 4 = .error e) ∧
    ((createTopics (.arr [TopicCfg.mk (.str "t1")]) true ctEnvLeaderless 2 3 []).1 =
      .error (.waitTimeout "Timed out while waiting for topic leaders")) ∧
    (∀ t : ErrType, AdminErr.waitTimeout "Timed out while waiting for topic leaders" ≠
      AdminErr.protocolE t)) :=
  ⟨⟨by decide, by decide⟩,
    createTopics_leader_poll
      (fun _ => Except.error (AdminErr.protocolE ErrType.LEADER_NOT_AVAILABLE))
      "m" 4 [TopicCfg.mk (.str "t1")] 3 2 [] (by decide) (by decide)⟩

end KafkaAdmin
